import Mathlib

/-!
# Verification of the kudu consensus/storage excerpt

A shallow embedding of the two source files of the repository:

* `src/tablet/delta_tracker.cc` — the `DeltaTracker` flush path
  (`DeltaTracker::Flush`, `DeltaTracker::FlushDMS`), embedded directly from
  the C++.
* `src/kudu/consensus/raft_consensus.h` — the Raft consensus replica.  The
  header carries only declarations (plus the inline `ConsensusRound`
  members), so the operational behaviour of the declared methods is modelled
  from the specification `spec.md`, which was written from the missing
  implementation file.  Each such definition carries a doc comment starting
  `Modelled from the spec:`.

Theorems at the end settle the frozen claims C1–C10.
-/

namespace DeltaTrackerModel

/-- Outcome `Status` of a fallible storage operation, as in `util/status.h`:
either `OK` or an error (we only distinguish error from success; the message
is kept so distinct failures stay distinct). -/
inductive DStatus where
  | ok : DStatus
  | ioError (msg : String) : DStatus
deriving DecidableEq, Repr

/-- The outcomes of the five fallible file operations `DeltaTracker::FlushDMS`
performs in order: `env_util::OpenFileForWrite`, `dfw.Start()`,
`dms.FlushToFile(&dfw)`, `dfw.Finish()`, `DeltaFileReader::Open`.  The
environment (file system) decides each. -/
structure FlushEnv where
  openFileForWrite : DStatus
  dfwStart : DStatus
  flushToFile : DStatus
  dfwFinish : DStatus
  reopenForRead : DStatus
deriving DecidableEq, Repr

/-- First non-OK status among the five file operations of `FlushDMS`, in
program order; `.ok` when all succeed. -/
def FlushEnv.firstFailure (env : FlushEnv) : DStatus :=
  if env.openFileForWrite ≠ .ok then env.openFileForWrite
  else if env.dfwStart ≠ .ok then env.dfwStart
  else if env.flushToFile ≠ .ok then env.flushToFile
  else if env.dfwFinish ≠ .ok then env.dfwFinish
  else if env.reopenForRead ≠ .ok then env.reopenForRead
  else .ok

/-- An element of `DeltaTracker::delta_trackers_`: either a (frozen)
`DeltaMemStore`, identified by how many deltas it holds, or a
`DeltaFileReader` over the delta file with the given index. -/
inductive TrackerEntry where
  | dms (count : Nat) : TrackerEntry
  | deltaFile (idx : Nat) : TrackerEntry
deriving DecidableEq, Repr

/-- The mutable state of a `DeltaTracker`: the live `DeltaMemStore`
(represented by its `Count()`), the list `delta_trackers_`, and
`next_deltafile_idx_`. -/
structure DeltaTracker where
  dmsCount : Nat
  delta_trackers : List TrackerEntry
  next_deltafile_idx : Nat
deriving DecidableEq, Repr

/-- The method `DeltaTracker::FlushDMS(dms, &dfr)`: post-increments
`next_deltafile_idx_`, then runs the five file operations in order,
returning the first failing status (via early `return s` /
`RETURN_NOT_OK`) or `OK`.  Result: (status, delta file index used, updated
tracker). -/
def FlushDMS (env : FlushEnv) (t : DeltaTracker) : DStatus × Nat × DeltaTracker :=
  let deltafile_idx := t.next_deltafile_idx
  (env.firstFailure, deltafile_idx,
    { t with next_deltafile_idx := deltafile_idx + 1 })

/-- Result of `DeltaTracker::Flush()`.  `returned s t wrote` means the call
returned status `s` with tracker state `t`, having written the delta files
in `wrote` (by index); `crashed` means a `CHECK` fired and the process
aborted. -/
inductive FlushOutcome where
  | returned (s : DStatus) (t : DeltaTracker) (wrote : List Nat) : FlushOutcome
  | crashed : FlushOutcome
deriving DecidableEq, Repr

/-- The method `DeltaTracker::Flush()`: if `dms_->Count() == 0` return `OK` at once.
Otherwise swap in a fresh empty `DeltaMemStore`, push the old one onto
`delta_trackers_`, call `FlushDMS` on it, `CHECK(s.ok())` — a non-OK status
aborts the process — and on success replace the pushed `DeltaMemStore` entry
with the `DeltaFileReader` just written. -/
def Flush (env : FlushEnv) (t : DeltaTracker) : FlushOutcome :=
  if t.dmsCount = 0 then
    .returned .ok t []
  else
    let t1 : DeltaTracker :=
      { t with dmsCount := 0,
               delta_trackers := t.delta_trackers ++ [.dms t.dmsCount] }
    match FlushDMS env t1 with
    | (.ok, idx, t2) =>
        .returned .ok
          { t2 with delta_trackers := t2.delta_trackers.dropLast ++ [.deltaFile idx] }
          [idx]
    | (.ioError _, _, _) => .crashed

end DeltaTrackerModel

namespace RaftModel

/-- An `OpId = (term, index)` uniquely names a log entry (spec §3; wire type
`consensus.pb.h`). -/
structure OpId where
  term : Nat
  index : Nat
deriving DecidableEq, Repr

/-- Modelled from the spec: ordering of `OpId`s is lexicographic on
`(term, index)`; this is the Raft up-to-date comparison used by
`RequestVote`. -/
def OpId.lessThan (a b : OpId) : Bool :=
  Nat.blt a.term b.term || (Nat.beq a.term b.term && Nat.blt a.index b.index)

/-- Raft role of a replica (spec §3; `RaftPeerPB::Role` in the header). -/
inductive Role where
  | leader | follower | learner | nonVoter
deriving DecidableEq, Repr

/-- Replica lifecycle state (the `State` enum of `raft_consensus.h`:
`kInitialized`, `kRunning`, `kShuttingDown`, `kShutDown`). -/
inductive RunState where
  | initialized | running | shuttingDown | shutDown
deriving DecidableEq, Repr

/-- The replica state the vote/term claims touch: persistent
`ConsensusMetadata` fields (`current_term`, `voted_for`), role, known
leader, last-logged `OpId`, the `withhold_votes_until_` condition, the
`update_lock_` busy condition, and a count of durable metadata flushes (to
observe the frame of each operation). -/
structure ReplicaState where
  run_state : RunState
  current_term : Nat
  voted_for : Option String
  role : Role
  leader_uuid : Option String
  lastLoggedOpId : OpId
  withholdVotes : Bool
  busy : Bool
  flushes : Nat
deriving DecidableEq, Repr

/-- True when the replica has voted in the current term for somebody other
than `cand`. -/
def ReplicaState.votedForOther (s : ReplicaState) (cand : String) : Bool :=
  match s.voted_for with
  | some v => v != cand
  | none => false

/-- True when the replica has voted in the current term for `cand`
itself. -/
def ReplicaState.votedForCandidate (s : ReplicaState) (cand : String) : Bool :=
  s.voted_for == some cand

/-- A `VoteRequestPB`: candidate id, candidate term, candidate's last-logged
`OpId`, the pre-election bit, and `ignore_live_leader`. -/
structure VoteRequest where
  candidate_uuid : String
  term : Nat
  last_logged_op_id : OpId
  is_pre_election : Bool
  ignore_live_leader : Bool
deriving DecidableEq, Repr

/-- The seven possible vote responses of `RequestVote`, matching the
`RequestVoteRespond*` helpers declared in the header. -/
inductive VoteCode where
  | invalidTerm | alreadyVoted | voteAlreadyGranted | lastOpIdTooOld
  | leaderIsAlive | isBusy | granted
deriving DecidableEq, Repr

/-- Modelled from the spec: `request_vote(req, resp)` (the implementation of
`RaftConsensus::RequestVote` is not in the excerpt).  The response
conditions are tested mutually exclusively, in the spec's order:
`INVALID_TERM` (stale term), `ALREADY_VOTED` (same term, voted for someone
else), `VOTE_ALREADY_GRANTED` (same term, voted for this candidate),
`LAST_OPID_TOO_OLD` (candidate's last-logged `OpId` strictly below ours),
`LEADER_IS_ALIVE` (withholding votes, unless `ignore_live_leader`),
`IS_BUSY`, else `GRANTED`.  A granted non-pre-vote durably records
`voted_for = candidate` at `req.term` (possibly first advancing the term)
and flushes; a pre-vote never mutates state. -/
def requestVote (s : ReplicaState) (req : VoteRequest) : VoteCode × ReplicaState :=
  if req.term < s.current_term then
    (.invalidTerm, s)
  else if Nat.beq req.term s.current_term && s.votedForOther req.candidate_uuid then
    (.alreadyVoted, s)
  else if Nat.beq req.term s.current_term && s.votedForCandidate req.candidate_uuid then
    (.voteAlreadyGranted, s)
  else if OpId.lessThan req.last_logged_op_id s.lastLoggedOpId then
    (.lastOpIdTooOld, s)
  else if s.withholdVotes && !req.ignore_live_leader then
    (.leaderIsAlive, s)
  else if s.busy then
    (.isBusy, s)
  else if req.is_pre_election then
    (.granted, s)
  else
    let s1 :=
      if s.current_term < req.term then
        { s with current_term := req.term, voted_for := none,
                 role := .follower, leader_uuid := none }
      else s
    (.granted, { s1 with voted_for := some req.candidate_uuid,
                         flushes := s1.flushes + 1 })

/-- Result of the term check of `Update`
(`HandleLeaderRequestTermUnlocked`): either reject with `INVALID_TERM`
carrying our own term back in the response, or proceed with a (possibly
updated) replica state. -/
inductive TermCheckResult where
  | rejectInvalidTerm (responder_term : Nat) (s : ReplicaState)
  | proceed (s : ReplicaState)
deriving DecidableEq, Repr

/-- The replica state after a term check, whichever way it went. -/
def TermCheckResult.state : TermCheckResult → ReplicaState
  | .rejectInvalidTerm _ s => s
  | .proceed s => s

/-- Modelled from the spec: step 1 of `update`
(`HandleLeaderRequestTermUnlocked`; its implementation is not in the
excerpt).  If `request.term < current_term`, reject with `INVALID_TERM`
and respond with our term.  If `request.term > current_term`, advance the
term (clears the vote, flushes metadata) and become Follower of
`request.leader_uuid`.  If equal and the leader is unknown, record the
leader. -/
def handleLeaderRequestTerm (s : ReplicaState) (reqTerm : Nat)
    (leaderUuid : String) : TermCheckResult :=
  if reqTerm < s.current_term then
    .rejectInvalidTerm s.current_term s
  else if s.current_term < reqTerm then
    .proceed { s with current_term := reqTerm, voted_for := none,
                      role := .follower, leader_uuid := some leaderUuid,
                      flushes := s.flushes + 1 }
  else if s.leader_uuid = none then
    .proceed { s with leader_uuid := some leaderUuid }
  else
    .proceed s

/-- Modelled from the spec: `HandleTermAdvanceUnlocked(new_term, flush)`
(implementation not in the excerpt).  Term advancement strictly increases
`current_term`; an attempt with `new_term ≤ current_term` is illegal and
leaves the state untouched (`none`).  Advancing clears `voted_for`, steps
down to Follower, clears the known leader, and flushes metadata unless
`SKIP_FLUSH_TO_DISK` was requested. -/
def handleTermAdvance (s : ReplicaState) (newTerm : Nat) (flush : Bool) :
    Option ReplicaState :=
  if newTerm ≤ s.current_term then none
  else some { s with current_term := newTerm, voted_for := none,
                     role := .follower, leader_uuid := none,
                     flushes := s.flushes + (if flush then 1 else 0) }

/-- Modelled from the spec: `AdvanceTermForTests` makes the peer advance its
term through the ordinary term-advancement path. -/
def advanceTermForTests (s : ReplicaState) (newTerm : Nat) :
    Option ReplicaState :=
  handleTermAdvance s newTerm true

/-- Modelled from the spec: `NotifyTermChange(t)` — the core steps down to
Follower at term `t` via term advancement; a stale notification
(`t ≤ current_term`) changes nothing. -/
def notifyTermChange (s : ReplicaState) (t : Nat) : ReplicaState :=
  match handleTermAdvance s t true with
  | some s1 => s1
  | none => s

/-- Modelled from the spec: steps 1–2 of a real election — increment
`current_term` durably, clear `voted_for`, vote for self, persist
`voted_for = self_uuid`, flush. -/
def startRealElection (s : ReplicaState) (selfUuid : String) : ReplicaState :=
  { s with current_term := s.current_term + 1,
           voted_for := some selfUuid,
           role := .follower,
           leader_uuid := none,
           flushes := s.flushes + 1 }

/-- One application of any modelled operation that may set `current_term`:
vote servicing, the `Update` term check, a term-change notification from
the queue, the test-only term advance, or starting a real election. -/
inductive TermStep : ReplicaState → ReplicaState → Prop
  | vote (s : ReplicaState) (req : VoteRequest) :
      TermStep s (requestVote s req).2
  | update (s : ReplicaState) (reqTerm : Nat) (uuid : String) :
      TermStep s (handleLeaderRequestTerm s reqTerm uuid).state
  | notify (s : ReplicaState) (t : Nat) :
      TermStep s (notifyTermChange s t)
  | advanceForTests (s s1 : ReplicaState) (t : Nat)
      (h : advanceTermForTests s t = some s1) : TermStep s s1
  | election (s : ReplicaState) (u : String) :
      TermStep s (startRealElection s u)

/-- Errors the modelled operations can fail with (spec §7: `NotLeader`,
`IllegalState`). -/
inductive RaftError where
  | notLeader | illegalState
deriving DecidableEq, Repr

/-- The `ConsensusRound` fields the bound-term guard touches: `bound_term_`
is an `int64_t`, set to `-1` if no term has been bound (header, line
903). -/
structure ConsensusRound where
  bound_term : Int
deriving DecidableEq, Repr

/-- From the header (inline member, lines 869–872): `BindToTerm(term)` sets
`bound_term_ = term`, binding the round so that it may not be eventually
executed in any other term. -/
def ConsensusRound.bindToTerm (r : ConsensusRound) (term : Int) : ConsensusRound :=
  { r with bound_term := term }

/-- Modelled from the spec: `ConsensusRound::CheckBoundTerm(current_term)`
(declared in the header, lines 874–882; implementation not in the
excerpt).  A no-op if the round has not been bound to any term
(`bound_term_ == -1`); otherwise the re-check `bound_term == current_term`
fails with `NotLeader` on mismatch. -/
def ConsensusRound.checkBoundTerm (r : ConsensusRound) (current_term : Int) :
    Except RaftError Unit :=
  if r.bound_term != -1 && r.bound_term != current_term then
    .error .notLeader
  else
    .ok ()

/-- Modelled from the spec: `CheckLeadershipAndBindTerm(round)` (declared in
the header, lines 215–221) — checks the replica is running and is the
active leader in `current_term` under lock, then stores the current term
inside the round's `bound_term`. -/
def checkLeadershipAndBindTerm (s : ReplicaState) (r : ConsensusRound) :
    Except RaftError ConsensusRound :=
  if s.run_state ≠ .running then .error .illegalState
  else if s.role ≠ .leader then .error .notLeader
  else .ok (r.bindToTerm (s.current_term : Int))

/-- Modelled from the spec: the append/replication step of a bound round
(`AppendNewRoundToQueueUnlocked`): before the round is actually appended
the core re-checks `bound_term == current_term`; on success the round is
appended and will replicate in the replica's current term (returned). -/
def appendRoundToQueue (s : ReplicaState) (r : ConsensusRound) :
    Except RaftError Int :=
  match r.checkBoundTerm (s.current_term : Int) with
  | .error e => .error e
  | .ok _ => .ok (s.current_term : Int)

/-- A pending operation tracked in `PendingRounds`, keyed by log index; we
record whether it carries a config change. -/
structure PendingOp where
  index : Nat
  isConfigChange : Bool
deriving DecidableEq, Repr

/-- State for commit advancement: the commit watermark, the index of the
last accepted operation, the pending rounds in increasing index order, and
the trace of indexes whose `replicated_cb` has fired with `Ok` (in firing
order), to observe callback effects. -/
structure CommitState where
  committed_index : Nat
  last_accepted_index : Nat
  pending : List PendingOp
  fired_ok : List Nat
deriving DecidableEq, Repr

/-- Modelled from the spec: `notify_commit_index(ci)` (§4.1 commit
advancement; `NotifyCommitIndex` is declared in the header, lines
304–307).  Clamp `ci` to `min(ci, last_accepted_index)`; every pending
round whose index is `≤` the clamped value is removed from `PendingRounds`
in index order and its callback invoked with `Ok`; the commit watermark
advances to the clamped value when that is higher. -/
def notifyCommitIndex (s : CommitState) (ci : Nat) : CommitState :=
  let c := min ci s.last_accepted_index
  let committed := s.pending.filter (fun r => Nat.ble r.index c)
  { s with
    pending := s.pending.filter (fun r => Nat.blt c r.index),
    fired_ok := s.fired_ok ++ committed.map (fun r => r.index),
    committed_index := max s.committed_index c }

/-- Per-peer replication state tracked by the `PeerMessageQueue` (spec §2):
we keep only what retention needs, the peer's `match_index`. -/
structure PeerTrackedState where
  uuid : String
  match_index : Nat
deriving DecidableEq, Repr

/-- The queue/pending view that `GetRetentionIndexes` reads: the commit
watermark, the indexes of the pending (accepted, uncommitted) operations,
and the tracked peers. -/
structure QueueState where
  committed_index : Nat
  pending_indexes : List Nat
  peers : List PeerTrackedState
deriving DecidableEq, Repr

/-- The pair returned by `GetRetentionIndexes` (`log::RetentionIndexes`). -/
structure RetentionIndexes where
  for_durability : Nat
  for_peers : Nat
deriving DecidableEq, Repr

/-- Running minimum of a list with a starting value. -/
def minOfList (x : Nat) (xs : List Nat) : Nat :=
  xs.foldl min x

/-- Modelled from the spec: `get_retention_indexes()` (§4.6;
`GetRetentionIndexes` is declared in the header, lines 315–321).
`for_durability = min(committed_index, earliest_pending_index)` — computed
by folding the running minimum of the pending indexes starting from the
commit watermark; `for_peers = min over peers of (match_index + 1)` — with
no tracked peers it degenerates to the durability index. -/
def getRetentionIndexes (q : QueueState) : RetentionIndexes :=
  let dur := minOfList q.committed_index q.pending_indexes
  { for_durability := dur,
    for_peers :=
      match q.peers.map (fun p => p.match_index + 1) with
      | [] => dur
      | x :: xs => minOfList x xs }

/-- The replica state the shutdown claim touches: lifecycle state, the
`shutdown_` atomic flag, whether the failure detector is registered, the
live peer workers, the pending rounds, and the trace of indexes whose
callback has fired with `Aborted`. -/
structure ShutdownState where
  run_state : RunState
  shutdown_flag : Bool
  failure_detector_enabled : Bool
  peer_workers : List String
  pending : List PendingOp
  fired_aborted : List Nat
deriving DecidableEq, Repr

/-- Modelled from the spec: `shutdown()` (§4.7; `Shutdown` is declared in
the header, line 291) — if the `shutdown_` flag is already set, return
immediately without touching anything; otherwise flip the flag, cancel the
failure detector, stop the peer workers, abort every pending round with
`Aborted` (firing its callback), and move to `ShutDown`. -/
def shutdown (s : ShutdownState) : ShutdownState :=
  if s.shutdown_flag then s
  else
    { run_state := .shutDown,
      shutdown_flag := true,
      failure_detector_enabled := false,
      peer_workers := [],
      pending := [],
      fired_aborted := s.fired_aborted ++ s.pending.map (fun r => r.index) }

/-- The running minimum never exceeds its starting value. -/
theorem minOfList_le_init (xs : List Nat) (a : Nat) : minOfList a xs ≤ a := by
  induction xs generalizing a with
  | nil => exact le_refl a
  | cons x xs ih =>
    exact le_trans (ih (min a x)) (min_le_left a x)

/-- The running minimum never exceeds any list element. -/
theorem minOfList_le_mem (xs : List Nat) (a : Nat) :
    ∀ i ∈ xs, minOfList a xs ≤ i := by
  induction xs generalizing a with
  | nil => intro i hi; exact absurd hi (List.not_mem_nil i)
  | cons x xs ih =>
    intro i hi
    rcases List.mem_cons.mp hi with rfl | hi
    · exact le_trans (minOfList_le_init xs (min a i)) (min_le_right a i)
    · exact ih (min a x) i hi

/-- The running minimum is attained: it is the starting value or a list
element. -/
theorem minOfList_eq_init_or_mem (xs : List Nat) (a : Nat) :
    minOfList a xs = a ∨ minOfList a xs ∈ xs := by
  induction xs generalizing a with
  | nil => exact Or.inl rfl
  | cons x xs ih =>
    have hstep : minOfList a (x :: xs) = minOfList (min a x) xs := rfl
    rcases ih (min a x) with h | h
    · rcases Nat.le_total a x with hax | hxa
      · exact Or.inl (by rw [hstep, h, Nat.min_eq_left hax])
      · refine Or.inr ?_
        rw [hstep, h, Nat.min_eq_right hxa]
        exact List.mem_cons_self x xs
    · exact Or.inr (by rw [hstep]; exact List.mem_cons_of_mem x h)

end RaftModel

open DeltaTrackerModel RaftModel

/-- C9: when flushing the DeltaMemStore to a delta file fails (any of the
file operations of FlushDMS returns a non-OK status), DeltaTracker::Flush
aborts the process via a CHECK assertion; it never propagates a non-OK
status to its caller. -/
theorem flush_failure_crashes (env : FlushEnv) (t : DeltaTracker)
    (hcount : t.dmsCount ≠ 0)
    (hfail : env.firstFailure ≠ .ok) :
    Flush env t = .crashed ∧
    ∀ s t1 w, Flush env t ≠ .returned s t1 w := by
  have hc : Flush env t = .crashed := by
    unfold Flush
    rw [if_neg hcount]
    cases henv : env.firstFailure with
    | ok => exact absurd henv hfail
    | ioError m => simp [FlushDMS, henv]
  refine ⟨hc, ?_⟩
  intro s t1 w hcon
  rw [hc] at hcon
  exact FlushOutcome.noConfusion hcon

/-- Witness for C9: a tracker with one pending delta and a failing
delta-file open crashes instead of returning. -/
theorem flush_failure_crashes_witness :
    Flush ⟨.ioError "disk full", .ok, .ok, .ok, .ok⟩ ⟨3, [], 0⟩ = .crashed ∧
    ∀ s t1 w,
      Flush ⟨.ioError "disk full", .ok, .ok, .ok, .ok⟩ ⟨3, [], 0⟩ ≠
        .returned s t1 w :=
  flush_failure_crashes ⟨.ioError "disk full", .ok, .ok, .ok, .ok⟩ ⟨3, [], 0⟩
    (by decide) (by decide)

/-- C10: DeltaTracker::Flush on an empty DeltaMemStore is a no-op: it
returns OK immediately, leaves the tracker state (dms, delta_trackers_,
next_deltafile_idx_) unchanged, and writes no delta file. -/
theorem flush_empty_noop (env : FlushEnv) (t : DeltaTracker)
    (h : t.dmsCount = 0) :
    Flush env t = .returned .ok t [] := by
  simp [Flush, h]

/-- Witness for C10: flushing a tracker whose DeltaMemStore holds zero
deltas returns OK and changes nothing. -/
theorem flush_empty_noop_witness :
    Flush ⟨.ok, .ok, .ok, .ok, .ok⟩ ⟨0, [.deltaFile 0], 1⟩ =
      .returned .ok ⟨0, [.deltaFile 0], 1⟩ [] :=
  flush_empty_noop ⟨.ok, .ok, .ok, .ok, .ok⟩ ⟨0, [.deltaFile 0], 1⟩ rfl

/-- C8: shutdown moves a live replica to ShutDown with the failure detector
cancelled, peer workers stopped and every pending round aborted, and a
second call is a no-op that changes no state and fires no callback again. -/
theorem shutdown_idempotent_spec (s : ShutdownState)
    (h : s.shutdown_flag = false) :
    (shutdown s).run_state = .shutDown ∧
    (shutdown s).failure_detector_enabled = false ∧
    (shutdown s).peer_workers = [] ∧
    (shutdown s).fired_aborted =
      s.fired_aborted ++ s.pending.map (fun r => r.index) ∧
    shutdown (shutdown s) = shutdown s := by
  simp [shutdown, h]

/-- Witness for C8 at a live replica with two pending rounds. -/
theorem shutdown_idempotent_spec_witness :
    (shutdown ⟨.running, false, true, ["B", "C"], [⟨4, false⟩, ⟨5, true⟩], []⟩).run_state
        = .shutDown ∧
    (shutdown ⟨.running, false, true, ["B", "C"], [⟨4, false⟩, ⟨5, true⟩], []⟩).failure_detector_enabled
        = false ∧
    (shutdown ⟨.running, false, true, ["B", "C"], [⟨4, false⟩, ⟨5, true⟩], []⟩).peer_workers
        = [] ∧
    (shutdown ⟨.running, false, true, ["B", "C"], [⟨4, false⟩, ⟨5, true⟩], []⟩).fired_aborted
        = [] ++ [PendingOp.mk 4 false, PendingOp.mk 5 true].map (fun r => r.index) ∧
    shutdown (shutdown ⟨.running, false, true, ["B", "C"], [⟨4, false⟩, ⟨5, true⟩], []⟩)
        = shutdown ⟨.running, false, true, ["B", "C"], [⟨4, false⟩, ⟨5, true⟩], []⟩ :=
  shutdown_idempotent_spec
    ⟨.running, false, true, ["B", "C"], [⟨4, false⟩, ⟨5, true⟩], []⟩ rfl

/-- C3: the term check of Update rejects a stale request with INVALID_TERM
carrying the replica's own term and leaves the state untouched, and a
higher-term request first advances the term (clearing the vote and
flushing metadata) and makes the replica a Follower of the request's
leader before the entries are processed. -/
theorem update_term_check (s : ReplicaState) (reqTerm : Nat) (uuid : String) :
    (reqTerm < s.current_term →
      handleLeaderRequestTerm s reqTerm uuid =
        .rejectInvalidTerm s.current_term s) ∧
    (s.current_term < reqTerm →
      handleLeaderRequestTerm s reqTerm uuid =
        .proceed { s with current_term := reqTerm, voted_for := none,
                          role := .follower, leader_uuid := some uuid,
                          flushes := s.flushes + 1 }) := by
  constructor
  · intro h
    simp [handleLeaderRequestTerm, h]
  · intro h
    have h1 : ¬ reqTerm < s.current_term := by omega
    simp [handleLeaderRequestTerm, h1, h]

/-- Witness for C3: a replica at term 5 rejects a term-3 request with its
own term, and steps down under a term-9 request. -/
theorem update_term_check_witness :
    handleLeaderRequestTerm
        ⟨.running, 5, some "X", .leader, some "A", ⟨5, 7⟩, false, false, 2⟩ 3 "L" =
      .rejectInvalidTerm 5
        ⟨.running, 5, some "X", .leader, some "A", ⟨5, 7⟩, false, false, 2⟩ ∧
    handleLeaderRequestTerm
        ⟨.running, 5, some "X", .leader, some "A", ⟨5, 7⟩, false, false, 2⟩ 9 "L" =
      .proceed ⟨.running, 9, none, .follower, some "L", ⟨5, 7⟩, false, false, 3⟩ :=
  ⟨(update_term_check
      ⟨.running, 5, some "X", .leader, some "A", ⟨5, 7⟩, false, false, 2⟩ 3 "L").1
      (by decide),
   (update_term_check
      ⟨.running, 5, some "X", .leader, some "A", ⟨5, 7⟩, false, false, 2⟩ 9 "L").2
      (by decide)⟩

/-- C1: a round accepted by the leader through CheckLeadershipAndBindTerm
has its bound_term set to the current term at acceptance, and when the
round is later about to be appended the core re-checks bound_term against
the then-current term: equal terms let the round replicate in the term of
acceptance, a differing term fails the round with NotLeader — a round
accepted in term T replicates in term T or is aborted, never replicated
under a different term. -/
theorem bound_term_guard (s s1 : ReplicaState) (r r1 : ConsensusRound)
    (hacc : checkLeadershipAndBindTerm s r = .ok r1) :
    r1.bound_term = (s.current_term : Int) ∧
    (s1.current_term = s.current_term →
      appendRoundToQueue s1 r1 = .ok (s.current_term : Int)) ∧
    (s1.current_term ≠ s.current_term →
      appendRoundToQueue s1 r1 = .error .notLeader) := by
  unfold checkLeadershipAndBindTerm at hacc
  split at hacc
  · exact Except.noConfusion hacc
  · split at hacc
    · exact Except.noConfusion hacc
    · injection hacc with hacc
      subst hacc
      refine ⟨rfl, ?_, ?_⟩
      · intro h
        simp [appendRoundToQueue, ConsensusRound.checkBoundTerm,
              ConsensusRound.bindToTerm, h]
      · intro h
        have h1 : ((s.current_term : Int) != -1) = true := by
          simp only [bne_iff_ne, ne_eq]
          omega
        have h2 : ((s.current_term : Int) != (s1.current_term : Int)) = true := by
          simp only [bne_iff_ne, ne_eq, Int.natCast_inj]
          omega
        simp [appendRoundToQueue, ConsensusRound.checkBoundTerm,
              ConsensusRound.bindToTerm, h1, h2]

/-- Witness for C1: a running leader at term 5 accepts and binds a round;
appending at term 5 replicates in term 5, appending after the term moved
to 6 fails with NotLeader. -/
theorem bound_term_guard_witness :
    (ConsensusRound.mk ((5 : Nat) : Int)).bound_term = ((5 : Nat) : Int) ∧
    appendRoundToQueue
        ⟨.running, 5, none, .leader, some "A", ⟨5, 10⟩, false, false, 0⟩
        (ConsensusRound.mk ((5 : Nat) : Int)) = .ok ((5 : Nat) : Int) ∧
    appendRoundToQueue
        ⟨.running, 6, none, .follower, some "B", ⟨5, 10⟩, false, false, 1⟩
        (ConsensusRound.mk ((5 : Nat) : Int)) = .error .notLeader := by
  have h := bound_term_guard
    ⟨.running, 5, none, .leader, some "A", ⟨5, 10⟩, false, false, 0⟩
    ⟨.running, 6, none, .follower, some "B", ⟨5, 10⟩, false, false, 1⟩
    ⟨-1⟩ (ConsensusRound.mk ((5 : Nat) : Int)) rfl
  have h5 := bound_term_guard
    ⟨.running, 5, none, .leader, some "A", ⟨5, 10⟩, false, false, 0⟩
    ⟨.running, 5, none, .leader, some "A", ⟨5, 10⟩, false, false, 0⟩
    ⟨-1⟩ (ConsensusRound.mk ((5 : Nat) : Int)) rfl
  exact ⟨h.1, h5.2.1 rfl, h.2.2 (by decide)⟩

/-- Counterexample to C2 as stated: the replica's term is not stale and it
has not voted for another candidate in that term, the candidate's
last-logged OpId is strictly older than ours, and yet the response is
VOTE_ALREADY_GRANTED rather than LAST_OPID_TOO_OLD — the replica had
already granted its vote to this same candidate, a case the spec's own
response order places before the up-to-date check. -/
theorem lastOpIdTooOld_not_iff_when_already_granted :
    ¬ (VoteRequest.mk "C" 3 ⟨2, 9⟩ false false).term <
        (ReplicaState.mk .running 3 (some "C") .follower none ⟨3, 5⟩
          false false 0).current_term ∧
    (ReplicaState.mk .running 3 (some "C") .follower none ⟨3, 5⟩
        false false 0).votedForOther "C" = false ∧
    OpId.lessThan ⟨2, 9⟩ ⟨3, 5⟩ = true ∧
    (requestVote
        (ReplicaState.mk .running 3 (some "C") .follower none ⟨3, 5⟩
          false false 0)
        (VoteRequest.mk "C" 3 ⟨2, 9⟩ false false)).1 =
      .voteAlreadyGranted := by
  decide

/-- C2 (amended): for a RequestVote whose term is not stale and for which
the replica has not yet voted at all in that term, the response is
LAST_OPID_TOO_OLD exactly when the candidate's last-logged OpId is
strictly below the replica's own under the lexicographic (term, index)
comparison; the response conditions are tested mutually exclusively in the
listed order, so exactly one response is produced. -/
theorem lastOpIdTooOld_iff_when_not_voted (s : ReplicaState) (req : VoteRequest)
    (hterm : ¬ req.term < s.current_term)
    (hvoted : req.term = s.current_term → s.voted_for = none) :
    (requestVote s req).1 = .lastOpIdTooOld ↔
      OpId.lessThan req.last_logged_op_id s.lastLoggedOpId = true := by
  have h2 : (Nat.beq req.term s.current_term &&
      s.votedForOther req.candidate_uuid) = false := by
    cases hbeq : Nat.beq req.term s.current_term with
    | false => rfl
    | true =>
      have hv := hvoted (Nat.eq_of_beq_eq_true hbeq)
      simp [ReplicaState.votedForOther, hv]
  have h3 : (Nat.beq req.term s.current_term &&
      s.votedForCandidate req.candidate_uuid) = false := by
    cases hbeq : Nat.beq req.term s.current_term with
    | false => rfl
    | true =>
      have hv := hvoted (Nat.eq_of_beq_eq_true hbeq)
      simp [ReplicaState.votedForCandidate, hv]
  rw [requestVote, if_neg hterm]
  simp only [h2, h3, Bool.false_eq_true, if_false]
  by_cases hlt : OpId.lessThan req.last_logged_op_id s.lastLoggedOpId = true
  · simp [hlt]
  · simp only [hlt, if_false, Bool.not_eq_true] at *
    simp only [hlt, Bool.false_eq_true, if_false]
    constructor
    · intro hcode
      exfalso
      revert hcode
      split
      · intro hcode; exact VoteCode.noConfusion hcode
      · split
        · intro hcode; exact VoteCode.noConfusion hcode
        · split
          · intro hcode; exact VoteCode.noConfusion hcode
          · intro hcode; exact VoteCode.noConfusion hcode
    · intro hcode; exact hcode.elim

/-- Witness for the amended C2: a replica at term 3 that has not voted,
facing a candidate whose log ends at (2, 9) against our (3, 5), answers
LAST_OPID_TOO_OLD exactly because the candidate is behind. -/
theorem lastOpIdTooOld_iff_when_not_voted_witness :
    ((requestVote
        (ReplicaState.mk .running 3 none .follower none ⟨3, 5⟩ false false 0)
        (VoteRequest.mk "C" 3 ⟨2, 9⟩ false false)).1 = .lastOpIdTooOld ↔
      OpId.lessThan ⟨2, 9⟩ ⟨3, 5⟩ = true) :=
  lastOpIdTooOld_iff_when_not_voted
    (ReplicaState.mk .running 3 none .follower none ⟨3, 5⟩ false false 0)
    (VoteRequest.mk "C" 3 ⟨2, 9⟩ false false)
    (by decide) (fun _ => rfl)

/-- C4: current_term is monotonically non-decreasing — each modelled
operation that may set the term (vote servicing, the Update term check,
term-change notifications from the queue, AdvanceTermForTests, starting a
real election) leaves current_term unchanged or strictly increases it. -/
theorem current_term_monotone (s s1 : ReplicaState) (h : TermStep s s1) :
    s.current_term ≤ s1.current_term := by
  cases h with
  | vote req =>
    unfold requestVote
    repeat' split
    all_goals try simp
    all_goals omega
  | update reqTerm uuid =>
    unfold handleLeaderRequestTerm
    repeat' split
    all_goals try simp [TermCheckResult.state]
    all_goals omega
  | notify t =>
    unfold notifyTermChange
    cases hadv : handleTermAdvance s t true with
    | none => simp
    | some s2 =>
      unfold handleTermAdvance at hadv
      split at hadv
      · exact Option.noConfusion hadv
      · injection hadv with hadv
        subst hadv
        simp
        omega
  | advanceForTests s1 t hadv =>
    unfold advanceTermForTests handleTermAdvance at hadv
    split at hadv
    · exact Option.noConfusion hadv
    · injection hadv with hadv
      subst hadv
      simp
      omega
  | election u =>
    exact Nat.le_succ s.current_term

/-- Witness for C4: starting a real election from term 4 does not lower the
term. -/
theorem current_term_monotone_witness :
    (ReplicaState.mk .running 4 none .follower none ⟨4, 2⟩
        false false 0).current_term ≤
      (startRealElection
        (ReplicaState.mk .running 4 none .follower none ⟨4, 2⟩
          false false 0) "A").current_term :=
  current_term_monotone
    (ReplicaState.mk .running 4 none .follower none ⟨4, 2⟩ false false 0)
    (startRealElection
      (ReplicaState.mk .running 4 none .follower none ⟨4, 2⟩ false false 0) "A")
    (TermStep.election
      (ReplicaState.mk .running 4 none .follower none ⟨4, 2⟩ false false 0) "A")

/-- C5: notify_commit_index is idempotent below the watermark — with the
pending set above the commit index (invariant P1) and the watermark no
higher than the last accepted index, a call with any value at most the
current commit index changes nothing: same commit index, same
PendingRounds, and no callback fires again. -/
theorem notifyCommitIndex_noop_below_watermark (s : CommitState) (ci : Nat)
    (hci : ci ≤ s.committed_index)
    (hacc : s.committed_index ≤ s.last_accepted_index)
    (hpend : ∀ r ∈ s.pending, s.committed_index < r.index) :
    notifyCommitIndex s ci = s := by
  have hc : min ci s.last_accepted_index = ci :=
    Nat.min_eq_left (le_trans hci hacc)
  have hkeep : s.pending.filter (fun r => Nat.blt ci r.index) = s.pending := by
    refine List.filter_eq_self.mpr ?_
    intro r hr
    have : ci < r.index := lt_of_le_of_lt hci (hpend r hr)
    simpa [Nat.blt_eq] using this
  have hgone : s.pending.filter (fun r => Nat.ble r.index ci) = [] := by
    refine List.filter_eq_nil_iff.mpr ?_
    intro r hr
    have : ci < r.index := lt_of_le_of_lt hci (hpend r hr)
    simp only [Nat.ble_eq]
    omega
  have hmax : max s.committed_index ci = s.committed_index :=
    Nat.max_eq_left hci
  simp only [notifyCommitIndex, hc, hkeep, hgone, hmax, List.map_nil,
    List.append_nil]

/-- Witness for C5: with the watermark at 4 and pending rounds 5 and 6, a
notification with value 3 is a no-op. -/
theorem notifyCommitIndex_noop_below_watermark_witness :
    notifyCommitIndex ⟨4, 6, [⟨5, false⟩, ⟨6, false⟩], [3, 4]⟩ 3 =
      ⟨4, 6, [⟨5, false⟩, ⟨6, false⟩], [3, 4]⟩ :=
  notifyCommitIndex_noop_below_watermark
    ⟨4, 6, [⟨5, false⟩, ⟨6, false⟩], [3, 4]⟩ 3 (by decide) (by decide)
    (by decide)

/-- C6: a RequestVote carrying the pre-election bit is answered without
durably recording anything — the replica state, in particular the
persistent voted_for and current_term (and the flush count), is unchanged;
conversely any state change comes from a granted non-pre-vote, which
records voted_for = candidate and flushes the metadata. -/
theorem preVote_no_durable_record (s : ReplicaState) (req : VoteRequest) :
    (req.is_pre_election = true →
      (requestVote s req).2.voted_for = s.voted_for ∧
      (requestVote s req).2.current_term = s.current_term ∧
      (requestVote s req).2.flushes = s.flushes ∧
      (requestVote s req).2 = s) ∧
    ((requestVote s req).2 ≠ s →
      req.is_pre_election = false ∧
      (requestVote s req).1 = .granted ∧
      (requestVote s req).2.voted_for = some req.candidate_uuid ∧
      s.flushes < (requestVote s req).2.flushes) := by
  constructor
  · intro hpre
    have hid : (requestVote s req).2 = s := by
      unfold requestVote
      repeat' split
      all_goals try rfl
    exact ⟨by rw [hid], by rw [hid], by rw [hid], hid⟩
  · unfold requestVote
    repeat' split
    all_goals intro hne
    all_goals try exact absurd rfl hne
    all_goals refine ⟨by simp_all, rfl, rfl, ?_⟩
    all_goals simp

/-- Witness for C6: a pre-vote that would be granted leaves the replica
state — including voted_for and current_term — untouched. -/
theorem preVote_no_durable_record_witness :
    (requestVote
        (ReplicaState.mk .running 3 none .follower none ⟨3, 5⟩ false false 0)
        (VoteRequest.mk "C" 4 ⟨4, 9⟩ true false)).2.voted_for =
      (ReplicaState.mk .running 3 none .follower none ⟨3, 5⟩
        false false 0).voted_for ∧
    (requestVote
        (ReplicaState.mk .running 3 none .follower none ⟨3, 5⟩ false false 0)
        (VoteRequest.mk "C" 4 ⟨4, 9⟩ true false)).2.current_term =
      (ReplicaState.mk .running 3 none .follower none ⟨3, 5⟩
        false false 0).current_term ∧
    (requestVote
        (ReplicaState.mk .running 3 none .follower none ⟨3, 5⟩ false false 0)
        (VoteRequest.mk "C" 4 ⟨4, 9⟩ true false)).2.flushes =
      (ReplicaState.mk .running 3 none .follower none ⟨3, 5⟩
        false false 0).flushes ∧
    (requestVote
        (ReplicaState.mk .running 3 none .follower none ⟨3, 5⟩ false false 0)
        (VoteRequest.mk "C" 4 ⟨4, 9⟩ true false)).2 =
      ReplicaState.mk .running 3 none .follower none ⟨3, 5⟩ false false 0 :=
  (preVote_no_durable_record
    (ReplicaState.mk .running 3 none .follower none ⟨3, 5⟩ false false 0)
    (VoteRequest.mk "C" 4 ⟨4, 9⟩ true false)).1 rfl

/-- C7: get_retention_indexes returns for_durability equal to the minimum
of the committed index and the earliest pending index (it is a lower bound
on both and attained by one of them), and for_peers equal to the minimum
over all tracked peers of match_index + 1. -/
theorem getRetentionIndexes_spec (q : QueueState) (hp : q.peers ≠ []) :
    ((getRetentionIndexes q).for_durability ≤ q.committed_index ∧
     (∀ i ∈ q.pending_indexes, (getRetentionIndexes q).for_durability ≤ i) ∧
     ((getRetentionIndexes q).for_durability = q.committed_index ∨
      (getRetentionIndexes q).for_durability ∈ q.pending_indexes)) ∧
    ((∀ p ∈ q.peers, (getRetentionIndexes q).for_peers ≤ p.match_index + 1) ∧
     (∃ p ∈ q.peers, (getRetentionIndexes q).for_peers = p.match_index + 1)) := by
  obtain ⟨cidx, pend, peers⟩ := q
  cases peers with
  | nil => exact absurd rfl hp
  | cons p rest =>
    refine ⟨⟨?_, ?_, ?_⟩, ?_, ?_⟩
    · exact minOfList_le_init pend cidx
    · exact minOfList_le_mem pend cidx
    · exact minOfList_eq_init_or_mem pend cidx
    · intro p1 hp1
      simp only [getRetentionIndexes, List.map_cons]
      rcases List.mem_cons.mp hp1 with rfl | hp1
      · exact minOfList_le_init _ _
      · exact minOfList_le_mem _ _ _
          (List.mem_map.mpr ⟨p1, hp1, rfl⟩)
    · simp only [getRetentionIndexes, List.map_cons]
      rcases minOfList_eq_init_or_mem
          (rest.map (fun pr => pr.match_index + 1)) (p.match_index + 1) with
        h | h
      · exact ⟨p, List.mem_cons_self p rest, h⟩
      · obtain ⟨p1, hp1, hval⟩ := List.mem_map.mp h
        exact ⟨p1, List.mem_cons_of_mem p hp1, hval.symm⟩

/-- Witness for C7 at a queue with commit index 7, pending indexes 8 and 9,
and two peers with match indexes 3 and 6. -/
theorem getRetentionIndexes_spec_witness :
    ((getRetentionIndexes ⟨7, [8, 9], [⟨"B", 3⟩, ⟨"C", 6⟩]⟩).for_durability ≤ 7 ∧
     (∀ i ∈ [8, 9],
        (getRetentionIndexes ⟨7, [8, 9], [⟨"B", 3⟩, ⟨"C", 6⟩]⟩).for_durability ≤ i) ∧
     ((getRetentionIndexes ⟨7, [8, 9], [⟨"B", 3⟩, ⟨"C", 6⟩]⟩).for_durability = 7 ∨
      (getRetentionIndexes ⟨7, [8, 9], [⟨"B", 3⟩, ⟨"C", 6⟩]⟩).for_durability ∈ [8, 9])) ∧
    ((∀ p ∈ [PeerTrackedState.mk "B" 3, PeerTrackedState.mk "C" 6],
        (getRetentionIndexes ⟨7, [8, 9], [⟨"B", 3⟩, ⟨"C", 6⟩]⟩).for_peers ≤
          p.match_index + 1) ∧
     (∃ p ∈ [PeerTrackedState.mk "B" 3, PeerTrackedState.mk "C" 6],
        (getRetentionIndexes ⟨7, [8, 9], [⟨"B", 3⟩, ⟨"C", 6⟩]⟩).for_peers =
          p.match_index + 1)) :=
  getRetentionIndexes_spec ⟨7, [8, 9], [⟨"B", 3⟩, ⟨"C", 6⟩]⟩ (by decide)
